import Mathlib

/-!
Shallow embedding of the state-synchronization and job-orchestration core of
`src/src/App.jsx` (a browser client managing uploaded documents and a
server-side form-filling job), together with theorems checking the
natural-language specification against it.

Conventions of the embedding:
* JavaScript strings are `String`; `undefined`/`null`-able response fields are
  `Option`; the `??` operator is `Option.getD`; string truthiness (`x || y`)
  is "non-empty string".
* Network requests and timers are not executed: functions return, alongside
  the next state, the number of requests issued and explicit timer handles,
  and asynchronous continuations are separate functions taking the response
  (`Except String _` for success / thrown-error) as an argument.
* `setTimeout`/`clearTimeout` are modelled by a list of pending timer ids
  plus the single tracked ref `pollTimer`.
-/

namespace PdfFormApp

/-- `JOB_POLL_INTERVAL_MS` from App.jsx line 32. -/
def JOB_POLL_INTERVAL_MS : Nat := 2000

/-- `MANIFEST_CACHE_TTL_MS` from App.jsx line 35. -/
def MANIFEST_CACHE_TTL_MS : Int := 5 * 60 * 1000

/-- One row of the visible manifest, as created throughout App.jsx
(`handleFilesSelected`, `mapManifestEntriesToState`). -/
structure FileEntry where
  id : String
  name : String
  size : Int
  status : String
  slug : String
  s3Url : String
  error : String
  deleting : Bool
  persisted : Bool
deriving DecidableEq

/-- `mergePersistedEntries` from App.jsx lines 109-112: server-confirmed
entries followed by the transient entries of the previous visible list. -/
def mergePersistedEntries (persistedEntries prevFiles : List FileEntry) : List FileEntry :=
  let transient := prevFiles.filter (fun entry => !entry.persisted)
  persistedEntries ++ transient

/-- One serialized file summary of a cache snapshot, as built by
`persistFilesToCache` (App.jsx lines 200-206). -/
structure CachedFile where
  status : String
  slug : String
  fileName : String
  s3Url : String
  size : Int
deriving DecidableEq

/-- The serializable cache payload (`manifestPayload`, App.jsx lines 196-207);
`updatedAt` is the write-time timestamp in epoch milliseconds (the source
stores `new Date().toISOString()` and reads it back with `Date.parse`). -/
structure ManifestPayload where
  updatedAt : Int
  files : List CachedFile
deriving DecidableEq

/-- `persistFilesToCache` from App.jsx lines 194-211: serialize the entries of
the visible list whose `slug` is truthy (non-empty). The cookie write itself
(`writeManifestCache`) is best-effort and carries no further logic. -/
def persistFilesToCache (now : Int) (nextFiles : List FileEntry) : ManifestPayload :=
  { updatedAt := now
    files := (nextFiles.filter (fun file => !file.slug.isEmpty)).map (fun file =>
      { status := file.status
        slug := file.slug
        fileName := file.name
        s3Url := file.s3Url
        size := file.size }) }

/-- A raw manifest file record as found in a parsed cache payload or in a
`GET /api/uploads` response body; every field may be absent. A `some` in
`size` models "is a JS number". -/
structure RawFile where
  slug : Option String
  fileName : Option String
  size : Option Int
  status : Option String
  s3Url : Option String
deriving DecidableEq

/-- A successfully parsed cache payload: `updatedAtMs` is `Date.parse` of the
stored `updatedAt` (`none` models `NaN`), `files` the stored array. The
parse-failure, missing-cookie and non-array branches of `readManifestCache`
(App.jsx lines 65-81) all collapse to `Option.none` of this type. -/
structure Snapshot where
  updatedAtMs : Option Int
  files : List RawFile
deriving DecidableEq

/-- JS string truthiness of an optional string field. -/
def truthyStr : Option String → Bool
  | some s => !s.isEmpty
  | none => false

/-- `readManifestCache` from App.jsx lines 65-81, after JSON decoding: a
parsed snapshot is classified stale when its timestamp is unparsable or
older than `MANIFEST_CACHE_TTL_MS`. -/
def readManifestCache (cache : Option Snapshot) (now : Int) : Option (Snapshot × Bool) :=
  match cache with
  | none => none
  | some parsed =>
      let isStale :=
        match parsed.updatedAtMs with
        | none => true
        | some updatedAt => decide (now - updatedAt > MANIFEST_CACHE_TTL_MS)
      some (parsed, isStale)

/-- `mapManifestEntriesToState` from App.jsx lines 94-107. `fresh` supplies
the `crypto.randomUUID()` value for the entry at each index. -/
def mapManifestEntriesToState (fresh : Nat → String) (entries : List RawFile) : List FileEntry :=
  ((entries.filter (fun file => truthyStr file.slug || truthyStr file.fileName)).enum).map
    (fun p =>
      { id := fresh p.1
        name :=
          if truthyStr p.2.fileName then p.2.fileName.getD ""
          else if truthyStr p.2.slug then p.2.slug.getD ""
          else "Stored file"
        size := p.2.size.getD 0
        status := p.2.status.getD "uploaded"
        slug := p.2.slug.getD ""
        s3Url := p.2.s3Url.getD ""
        error := ""
        deleting := false
        persisted := true })

/-- A state mutation committed by the hydration path: `applyEntries` is
`applyManifestEntries` (merge into the visible list, with its `skipCache`
option), the other two are the `setManifestError` / `setManifestLoading`
state setters. -/
inductive HydMut where
  | applyEntries (entries : List FileEntry) (skipCache : Bool)
  | setManifestError (msg : String)
  | setManifestLoading (b : Bool)
deriving DecidableEq

/-- JS `error.message || fallback`: the thrown message unless it is empty. -/
def errMessage (msg fallback : String) : String :=
  if msg.isEmpty then fallback else msg

/-- The synchronous prefix of `hydrateUploads` (App.jsx lines 233-252), from
invocation up to the `apiFetch` call: the optional cache read/apply and the
staleness decision. `aborted` is the value of `signal?.aborted` throughout
this prefix (no await occurs inside it). Returns the mutations committed and
whether execution proceeds to the network fetch. -/
def hydratePhase1 (ignoreCache aborted : Bool) (cache : Option Snapshot) (now : Int)
    (fresh : Nat → String) : List HydMut × Bool :=
  if !ignoreCache then
    match readManifestCache cache now with
    | some (parsed, isStale) =>
        let cachedEntries := mapManifestEntriesToState fresh parsed.files
        if aborted then ([], false)
        else
          let m := [HydMut.applyEntries cachedEntries true, HydMut.setManifestError ""]
          if !isStale then (m ++ [HydMut.setManifestLoading false], false)
          else if aborted then (m, false)
          else (m ++ [HydMut.setManifestLoading true], true)
    | none =>
        if aborted then ([], false) else ([HydMut.setManifestLoading true], true)
  else
    if aborted then ([], false) else ([HydMut.setManifestLoading true], true)

/-- The continuation of `hydrateUploads` after the awaited `apiFetch`
(App.jsx lines 256-268): `aborted` is `signal?.aborted` after the await,
`resp` the fetch outcome (`.ok` carries the optional `files` array of the
response body, `.error` the thrown message). Includes the `finally` block. -/
def hydratePhase2 (aborted : Bool) (fresh : Nat → String)
    (resp : Except String (Option (List RawFile))) : List HydMut :=
  match resp with
  | .ok files =>
      if aborted then []
      else
        [HydMut.applyEntries (mapManifestEntriesToState fresh (files.getD [])) false,
         HydMut.setManifestError "", HydMut.setManifestLoading false]
  | .error msg =>
      if aborted then []
      else
        [HydMut.setManifestError (errMessage msg "Failed to load previous uploads."),
         HydMut.setManifestLoading false]

/-- `hydrateUploads` (App.jsx lines 233-271) as one run: the committed
mutations in order, and the number of network fetches issued. `a1` is the
abort flag during the synchronous prefix, `a2` after the fetch await. -/
def hydrateUploads (ignoreCache a1 a2 : Bool) (cache : Option Snapshot) (now : Int)
    (fresh : Nat → String) (resp : Except String (Option (List RawFile))) :
    List HydMut × Nat :=
  let p1 := hydratePhase1 ignoreCache a1 cache now fresh
  if p1.2 then (p1.1 ++ hydratePhase2 a2 fresh resp, 1) else (p1.1, 0)

/-- Boolean prefix test on character lists (kernel-computable stand-in for
`String.startsWith`). -/
def listStartsWith : List Char → List Char → Bool
  | [], _ => true
  | _ :: _, [] => false
  | c :: cs, d :: ds => (c == d) && listStartsWith cs ds

/-- Modelled from the spec: `isValidHttpUrl` (App.jsx lines 127-135) delegates
parsing to the platform WHATWG `URL` constructor, which is not repository
code; per the spec it accepts exactly "a syntactically valid target-link URL
(http/https scheme only)", modelled as an `http://` or `https://` prefix
followed by at least one further character. -/
def isValidHttpUrl (url : String) : Bool :=
  (listStartsWith "http://".data url.data && decide (url.length > 7)) ||
  (listStartsWith "https://".data url.data && decide (url.length > 8))

/-- The job-orchestration slice of the component state: the four job `useState`
cells, the tracked `pollTimer` ref, plus an explicit model of the runtime's
pending `setTimeout` handles (`pending`), a fresh-handle counter, and whether a
`POST /api/form-fill` response is still awaited. -/
structure JobState where
  jobStatus : String
  jobId : String
  jobError : String
  filledFormUrl : String
  pollTimer : Option Nat
  pending : List Nat
  nextTimer : Nat
  startInFlight : Bool
deriving DecidableEq

/-- The initial component state (App.jsx lines 187-192). -/
def initJobState : JobState :=
  { jobStatus := "idle", jobId := "", jobError := "", filledFormUrl := "",
    pollTimer := none, pending := [], nextTimer := 0, startInFlight := false }

/-- `clearExistingPoll` from App.jsx lines 391-396. -/
def clearExistingPoll (s : JobState) : JobState :=
  match s.pollTimer with
  | some t => { s with pending := s.pending.erase t, pollTimer := none }
  | none => s

/-- The `setTimeout` of `scheduleJobPoll` (App.jsx line 400): register a fresh
pending timer and track its handle in `pollTimer`. -/
def setTimeoutPoll (s : JobState) : JobState :=
  { s with
      pending := s.pending ++ [s.nextTimer]
      pollTimer := some s.nextTimer
      nextTimer := s.nextTimer + 1 }

/-- `scheduleJobPoll` (App.jsx lines 398-400, up to arming the timer): cancel
any tracked timer, then arm exactly one new one. -/
def scheduleJobPoll (s : JobState) : JobState :=
  setTimeoutPoll (clearExistingPoll s)

/-- `allUploadsComplete` from App.jsx line 290. -/
def allUploadsComplete (files : List FileEntry) : Bool :=
  decide (files.length > 0) && files.all (fun file => file.status == "uploaded")

/-- `canStartFill` from App.jsx line 291. -/
def canStartFill (formUrlIsValid : Bool) (files : List FileEntry) (jobStatus : String) : Bool :=
  formUrlIsValid && allUploadsComplete files &&
    !(jobStatus == "filling") && !(jobStatus == "queued")

/-- Body of a `POST /api/form-fill` response (App.jsx lines 438-440). -/
structure StartResponse where
  jobId : String
  status : String
  filledFormUrl : Option String
deriving DecidableEq

/-- Body of a `GET /api/form-fill/:id` poll response (App.jsx lines 404-405). -/
structure PollResponse where
  status : String
  filledFormUrl : Option String
deriving DecidableEq

/-- The synchronous prefix of `handleStartFill` (App.jsx lines 421-436): the
`canStartFill` guard, timer cancellation, optimistic state reset, and the job
creation request. The second component counts requests issued. -/
def handleStartFillBegin (formUrlIsValid : Bool) (files : List FileEntry) (s : JobState) :
    JobState × Nat :=
  if !(canStartFill formUrlIsValid files s.jobStatus) then (s, 0)
  else
    ({ clearExistingPoll s with
        jobStatus := "queued", jobId := "", jobError := "", filledFormUrl := "",
        startInFlight := true }, 1)

/-- The continuation of `handleStartFill` after the awaited job-creation
request (App.jsx lines 438-455), including the catch branch. -/
def handleStartFillComplete (resp : Except String StartResponse) (s : JobState) : JobState :=
  let s0 := { s with startInFlight := false }
  match resp with
  | .ok r =>
      let s1 :=
        { s0 with
            jobId := r.jobId
            jobStatus := r.status
            filledFormUrl := r.filledFormUrl.getD "" }
      if r.status == "complete" then s1
      else if r.status == "error" then { s1 with jobError := "Pipeline reported an error." }
      else scheduleJobPoll s1
  | .error msg =>
      { s0 with jobStatus := "error", jobError := errMessage msg "Failed to start form filling" }

/-- The body of the poll callback (App.jsx lines 401-417), run once its timer
has fired: commit the reported status, then stop on a terminal status,
re-schedule on a non-terminal one, and fail hard on a thrown error. -/
def pollHandler (resp : Except String PollResponse) (s : JobState) : JobState :=
  match resp with
  | .ok r =>
      let s1 := { s with jobStatus := r.status, filledFormUrl := r.filledFormUrl.getD "" }
      if r.status == "complete" || r.status == "error" then
        clearExistingPoll
          { s1 with jobError := if r.status == "error" then "Pipeline reported an error." else "" }
      else scheduleJobPoll s1
  | .error msg =>
      clearExistingPoll { s with jobStatus := "error", jobError := errMessage msg "Polling failed" }

/-- Expiry of the pending timer `t`: the runtime removes it from the pending
set and runs the poll callback. -/
def pollFire (t : Nat) (resp : Except String PollResponse) (s : JobState) : JobState :=
  pollHandler resp { s with pending := s.pending.erase t }

/-- The unmount cleanup effect (App.jsx lines 273-279): `clearTimeout` on the
tracked handle, without nulling the ref. -/
def teardownCleanup (s : JobState) : JobState :=
  match s.pollTimer with
  | some t => { s with pending := s.pending.erase t }
  | none => s

/-- One event of the job subsystem: a click on Start (with the current URL
validity and file list), completion of the job-creation request, expiry of a
pending poll timer, or the unmount cleanup. -/
inductive JobStep : JobState → JobState → Prop where
  | startBegin (v : Bool) (files : List FileEntry) (s : JobState) :
      JobStep s (handleStartFillBegin v files s).1
  | startComplete (resp : Except String StartResponse) (s : JobState)
      (h : s.startInFlight = true) : JobStep s (handleStartFillComplete resp s)
  | fire (t : Nat) (resp : Except String PollResponse) (s : JobState)
      (h1 : s.pollTimer = some t) (h2 : t ∈ s.pending) : JobStep s (pollFire t resp s)
  | cleanup (s : JobState) : JobStep s (teardownCleanup s)

/-- States of the job subsystem reachable from the initial component state. -/
inductive JobReachable : JobState → Prop where
  | init : JobReachable initJobState
  | step {s s' : JobState} : JobReachable s → JobStep s s' → JobReachable s'

/-- The timer invariant: no pending timer, or exactly the tracked one. -/
def timerInv (s : JobState) : Prop :=
  s.pending = [] ∨ ∃ t, s.pollTimer = some t ∧ s.pending = [t]

end PdfFormApp

namespace PdfFormApp

/-- Claim C1 — `mergePersistedEntries` returns exactly the server entries
concatenated with the transient (non-persisted) entries of the current
visible list, an order-preserving sublist of it; when the visible list has
no transient entries the result is the server entries alone. -/
theorem mergePersistedEntries_spec (S V : List FileEntry) :
    mergePersistedEntries S V = S ++ V.filter (fun e => !e.persisted) ∧
    (V.filter (fun e => !e.persisted)).Sublist V ∧
    ((∀ e ∈ V, e.persisted = true) → mergePersistedEntries S V = S) := by
  refine ⟨rfl, List.filter_sublist V, fun h => ?_⟩
  have hnil : V.filter (fun e => !e.persisted) = [] := by
    rw [List.filter_eq_nil_iff]
    intro e he
    simp [h e he]
  simp [mergePersistedEntries, hnil]

/-- Witness for C1 at a concrete fully-persisted visible list. -/
theorem mergePersistedEntries_spec_witness :
    mergePersistedEntries
      [{ id := "s1", name := "a.pdf", size := 1, status := "uploaded", slug := "a",
         s3Url := "", error := "", deleting := false, persisted := true }]
      [{ id := "v1", name := "b.pdf", size := 2, status := "uploaded", slug := "b",
         s3Url := "", error := "", deleting := false, persisted := true }] =
      [{ id := "s1", name := "a.pdf", size := 1, status := "uploaded", slug := "a",
         s3Url := "", error := "", deleting := false, persisted := true }] :=
  (mergePersistedEntries_spec _ _).2.2 (by decide)

/-- Claim C2 — every file summary in a cache snapshot written by
`persistFilesToCache` has a non-empty slug: transient entries never enter a
written snapshot, whatever visible list reaches the cache-write path. -/
theorem persistFilesToCache_only_persisted (now : Int) (files : List FileEntry) :
    ∀ c ∈ (persistFilesToCache now files).files, c.slug ≠ "" := by
  intro c hc
  simp only [persistFilesToCache, List.mem_map, List.mem_filter] at hc
  obtain ⟨f, ⟨_, hslug⟩, rfl⟩ := hc
  intro heq
  have hs : f.slug = "" := heq
  rw [hs] at hslug
  exact absurd hslug (by decide)

/-- Witness for C2: a mixed list with one transient entry; the snapshot keeps
only the persisted entry, whose slug is non-empty. -/
theorem persistFilesToCache_only_persisted_witness :
    ({ status := "uploaded", slug := "a", fileName := "a.pdf", s3Url := "", size := 1 } :
        CachedFile).slug ≠ "" :=
  persistFilesToCache_only_persisted 0
    [{ id := "t1", name := "new.pdf", size := 3, status := "uploading", slug := "",
       s3Url := "", error := "", deleting := false, persisted := false },
     { id := "p1", name := "a.pdf", size := 1, status := "uploaded", slug := "a",
       s3Url := "", error := "", deleting := false, persisted := true }]
    _ (by decide)

/-- Claim C3 — hydration with the cache not ignored and no abort: a cached
snapshot's entries are applied to the visible state first; a fresh snapshot
(age at most the 5-minute TTL) issues no network fetch; a stale snapshot, or
an absent cache read, issues exactly one network fetch. -/
theorem hydrateUploads_cache_policy (S : Snapshot) (t now : Int) (fresh : Nat → String)
    (resp : Except String (Option (List RawFile))) (ht : S.updatedAtMs = some t) :
    (hydrateUploads false false false (some S) now fresh resp).1.head? =
        some (HydMut.applyEntries (mapManifestEntriesToState fresh S.files) true) ∧
    (now - t ≤ MANIFEST_CACHE_TTL_MS →
        (hydrateUploads false false false (some S) now fresh resp).2 = 0) ∧
    (now - t > MANIFEST_CACHE_TTL_MS →
        (hydrateUploads false false false (some S) now fresh resp).2 = 1) ∧
    (hydrateUploads false false false none now fresh resp).2 = 1 := by
  have hread : readManifestCache (some S) now =
      some (S, decide (now - t > MANIFEST_CACHE_TTL_MS)) := by
    simp [readManifestCache, ht]
  refine ⟨?_, fun hfresh => ?_, fun hstale => ?_, ?_⟩
  · by_cases hstale : now - t > MANIFEST_CACHE_TTL_MS <;>
      simp [hydrateUploads, hydratePhase1, hread, hstale]
  · simp [hydrateUploads, hydratePhase1, hread,
      show ¬(now - t > MANIFEST_CACHE_TTL_MS) from not_lt.mpr hfresh]
  · simp [hydrateUploads, hydratePhase1, hread, hstale]
  · simp [hydrateUploads, hydratePhase1, readManifestCache]

/-- Witness for C3: a snapshot written at time 0 read at time 1000 (fresh,
no fetch) and read at time `10^9` (stale, one fetch). -/
theorem hydrateUploads_cache_policy_witness :
    (hydrateUploads false false false
        (some { updatedAtMs := some 0, files := [] }) 1000 (fun _ => "u")
        (Except.ok none)).2 = 0 ∧
    (hydrateUploads false false false
        (some { updatedAtMs := some 0, files := [] }) 1000000000 (fun _ => "u")
        (Except.ok none)).2 = 1 :=
  ⟨(hydrateUploads_cache_policy { updatedAtMs := some 0, files := [] } 0 1000
      (fun _ => "u") (Except.ok none) rfl).2.1 (by norm_num [MANIFEST_CACHE_TTL_MS]),
   (hydrateUploads_cache_policy { updatedAtMs := some 0, files := [] } 0 1000000000
      (fun _ => "u") (Except.ok none) rfl).2.2.1 (by norm_num [MANIFEST_CACHE_TTL_MS])⟩

/-- `clearExistingPoll` always leaves the tracked ref empty. -/
theorem clearExistingPoll_pollTimer (s : JobState) :
    (clearExistingPoll s).pollTimer = none := by
  unfold clearExistingPoll
  cases h : s.pollTimer <;> simp [h]

/-- Under the timer invariant, `clearExistingPoll` leaves no pending timer. -/
theorem clearExistingPoll_pending {s : JobState} (h : timerInv s) :
    (clearExistingPoll s).pending = [] := by
  unfold clearExistingPoll
  rcases h with h0 | ⟨t, ht, hp⟩
  · cases hpt : s.pollTimer <;> simp [h0, hpt]
  · simp [ht, hp]

/-- `scheduleJobPoll` preserves the timer invariant: afterwards exactly the
newly armed timer is pending and tracked. -/
theorem timerInv_scheduleJobPoll {s : JobState} (h : timerInv s) :
    timerInv (scheduleJobPoll s) := by
  right
  refine ⟨(clearExistingPoll s).nextTimer, rfl, ?_⟩
  show (clearExistingPoll s).pending ++ [(clearExistingPoll s).nextTimer] = _
  rw [clearExistingPoll_pending h]
  rfl

/-- Every event of the job subsystem preserves the timer invariant. -/
theorem timerInv_step {s s' : JobState} (h : timerInv s) (hs : JobStep s s') :
    timerInv s' := by
  cases hs with
  | startBegin v files s =>
      cases hc : canStartFill v files s.jobStatus
      · simpa [handleStartFillBegin, hc] using h
      · left
        have hp := clearExistingPoll_pending h
        simpa [handleStartFillBegin, hc] using hp
  | startComplete resp s hsf =>
      cases resp with
      | ok r =>
          simp only [handleStartFillComplete]
          split
          · exact h
          · split
            · exact h
            · exact timerInv_scheduleJobPoll h
      | error msg => exact h
  | fire t resp s h1 h2 =>
      have hp : s.pending.erase t = [] := by
        rcases h with h0 | ⟨u, hu, hpend⟩
        · simp [h0]
        · have hut : u = t := Option.some.inj (hu.symm.trans h1)
          subst hut
          simp [hpend]
      cases resp with
      | ok r =>
          simp only [pollFire, pollHandler]
          split
          · exact Or.inl (clearExistingPoll_pending (Or.inl hp))
          · exact timerInv_scheduleJobPoll (Or.inl hp)
      | error msg =>
          exact Or.inl (clearExistingPoll_pending (Or.inl hp))
  | cleanup s =>
      rcases h with h0 | ⟨u, hu, hpend⟩
      · left
        unfold teardownCleanup
        cases hpt : s.pollTimer <;> simp [hpt, h0]
      · left
        unfold teardownCleanup
        rw [hu]
        simp [hpend]

/-- The timer invariant holds in every reachable state. -/
theorem timerInv_reachable {s : JobState} (h : JobReachable s) : timerInv s := by
  induction h with
  | init => exact Or.inl rfl
  | step _ hs ih => exact timerInv_step ih hs

/-- Claim C4 — in every reachable state at most one job-poll timer is
pending; starting a job either first cancels the tracked timer or is a
no-op; and starting a job while one is queued or filling is a no-op. -/
theorem jobPoll_single_timer (s : JobState) :
    (JobReachable s → s.pending.length ≤ 1) ∧
    (∀ (v : Bool) (files : List FileEntry),
        (handleStartFillBegin v files s).1.pollTimer = none ∨
        handleStartFillBegin v files s = (s, 0)) ∧
    (∀ (v : Bool) (files : List FileEntry),
        s.jobStatus = "queued" ∨ s.jobStatus = "filling" →
        handleStartFillBegin v files s = (s, 0)) := by
  refine ⟨fun hr => ?_, fun v files => ?_, fun v files hq => ?_⟩
  · rcases timerInv_reachable hr with h0 | ⟨t, _, hp⟩
    · simp [h0]
    · simp [hp]
  · cases hc : canStartFill v files s.jobStatus
    · right
      simp [handleStartFillBegin, hc]
    · left
      have := clearExistingPoll_pollTimer s
      simpa [handleStartFillBegin, hc] using this
  · have hc : canStartFill v files s.jobStatus = false := by
      rcases hq with hq | hq <;>
        simp [canStartFill, hq]
    simp [handleStartFillBegin, hc]

/-- Witness state for the job machine: the state reached by starting a job
from the initial state with a valid link and one uploaded file. -/
def demoFiles : List FileEntry :=
  [{ id := "f1", name := "a.pdf", size := 1, status := "uploaded", slug := "a",
     s3Url := "", error := "", deleting := false, persisted := true }]

/-- The queued state reached by one successful start click. -/
def demoQueued : JobState := (handleStartFillBegin true demoFiles initJobState).1

/-- `demoQueued` is reachable. -/
theorem demoQueued_reachable : JobReachable demoQueued :=
  JobReachable.step JobReachable.init (JobStep.startBegin true demoFiles initJobState)

/-- Witness for C4 at the concrete reachable queued state. -/
theorem jobPoll_single_timer_witness :
    demoQueued.pending.length ≤ 1 ∧
    ((handleStartFillBegin true demoFiles demoQueued).1.pollTimer = none ∨
        handleStartFillBegin true demoFiles demoQueued = (demoQueued, 0)) ∧
    handleStartFillBegin true demoFiles demoQueued = (demoQueued, 0) := by
  obtain ⟨h1, h2, h3⟩ := jobPoll_single_timer demoQueued
  exact ⟨h1 demoQueued_reachable, h2 true demoFiles, h3 true demoFiles (Or.inl (by decide))⟩

/-- Claim C7 — expiry of the single pending poll timer: a terminal response
(`complete`/`error`) stops polling with no timer pending and records the
result URL and the error flag; a non-terminal response arms exactly one new
timer; a transport/parse failure moves the job to `error` at once with no
timer armed. -/
theorem pollFire_poll_policy (s : JobState) (t : Nat)
    (resp : Except String PollResponse)
    (h1 : s.pollTimer = some t) (h2 : s.pending = [t]) :
    (∀ r : PollResponse, resp = Except.ok r →
        (r.status = "complete" ∨ r.status = "error") →
        (pollFire t resp s).pending = [] ∧ (pollFire t resp s).pollTimer = none ∧
        (pollFire t resp s).jobStatus = r.status ∧
        (pollFire t resp s).filledFormUrl = r.filledFormUrl.getD "" ∧
        (pollFire t resp s).jobError =
          (if r.status = "error" then "Pipeline reported an error." else "")) ∧
    (∀ r : PollResponse, resp = Except.ok r →
        ¬(r.status = "complete" ∨ r.status = "error") →
        (pollFire t resp s).pending = [s.nextTimer] ∧
        (pollFire t resp s).pollTimer = some s.nextTimer) ∧
    (∀ msg : String, resp = Except.error msg →
        (pollFire t resp s).jobStatus = "error" ∧
        (pollFire t resp s).jobError = errMessage msg "Polling failed" ∧
        (pollFire t resp s).pending = [] ∧ (pollFire t resp s).pollTimer = none) := by
  have herase : s.pending.erase t = [] := by simp [h2]
  refine ⟨fun r hr hterm => ?_, fun r hr hnon => ?_, fun msg hr => ?_⟩
  · subst hr
    have hb : (r.status == "complete" || r.status == "error") = true := by
      rcases hterm with h | h <;> simp [h]
    rcases hterm with h | h <;>
      simp [pollFire, pollHandler, hb, clearExistingPoll, h1, herase, h]
  · subst hr
    have hb : (r.status == "complete" || r.status == "error") = false := by
      push_neg at hnon
      simp [hnon.1, hnon.2]
    refine ⟨?_, ?_⟩ <;>
      simp [pollFire, pollHandler, hb, scheduleJobPoll, setTimeoutPoll,
        clearExistingPoll, h1, herase]
  · subst hr
    simp [pollFire, pollHandler, clearExistingPoll, h1, herase]

/-- A concrete state with exactly one pending poll timer. -/
def demoPolling : JobState :=
  { jobStatus := "filling", jobId := "J1", jobError := "", filledFormUrl := "",
    pollTimer := some 0, pending := [0], nextTimer := 1, startInFlight := false }

/-- Witness for C7 at `demoPolling` with a complete, a filling, and a thrown
poll outcome. -/
theorem pollFire_poll_policy_witness :
    (pollFire 0 (Except.ok { status := "complete", filledFormUrl := some "https://x/y.pdf" })
        demoPolling).pending = [] ∧
    (pollFire 0 (Except.ok { status := "filling", filledFormUrl := none })
        demoPolling).pending = [demoPolling.nextTimer] ∧
    (pollFire 0 (Except.error "boom") demoPolling).jobStatus = "error" := by
  refine ⟨((pollFire_poll_policy demoPolling 0 _ rfl rfl).1 _ rfl (Or.inl rfl)).1,
    ((pollFire_poll_policy demoPolling 0 _ rfl rfl).2.1 _ rfl (by simp)).1,
    ((pollFire_poll_policy demoPolling 0 _ rfl rfl).2.2 "boom" rfl).1⟩

/-- Claim C5 — `handleStartFill` is a no-op (no request, unchanged job state)
when the target link is not a valid http/https URL, or some visible entry is
not `uploaded`, or a job is already queued or filling. -/
theorem handleStartFill_precondition_noop (url : String) (files : List FileEntry)
    (s : JobState)
    (h : isValidHttpUrl url = false ∨ (∃ f ∈ files, f.status ≠ "uploaded") ∨
        s.jobStatus = "queued" ∨ s.jobStatus = "filling") :
    handleStartFillBegin (isValidHttpUrl url) files s = (s, 0) := by
  have hc : canStartFill (isValidHttpUrl url) files s.jobStatus = false := by
    rcases h with h | ⟨f, hf, hfs⟩ | h | h
    · simp [canStartFill, h]
    · have hall : files.all (fun file => file.status == "uploaded") = false := by
        rw [List.all_eq_false]
        exact ⟨f, hf, by simp [hfs]⟩
      simp [canStartFill, allUploadsComplete, hall]
    · simp [canStartFill, h]
    · simp [canStartFill, h]
  simp [handleStartFillBegin, hc]

/-- Witness for C5: an `ftp://x` link is rejected before any request. -/
theorem handleStartFill_precondition_noop_witness :
    handleStartFillBegin (isValidHttpUrl "ftp://x") demoFiles initJobState =
      (initJobState, 0) :=
  handleStartFill_precondition_noop "ftp://x" demoFiles initJobState
    (Or.inl (by decide))

/-- Claim C10 — with an empty visible file list, starting a fill job is a
no-op (no request, unchanged job state) whatever the link validity and the
current job status: `allUploadsComplete` requires a non-empty list. -/
theorem handleStartFill_empty_files_noop (url : String) (s : JobState) :
    handleStartFillBegin (isValidHttpUrl url) [] s = (s, 0) := by
  simp [handleStartFillBegin, canStartFill, allUploadsComplete]

end PdfFormApp

namespace PdfFormApp

/-- Body of a successful `POST /api/uploads` response (App.jsx lines 341-353);
a `some` in `size` models "the field is a JS number". -/
structure UploadResponse where
  status : Option String
  s3Url : Option String
  slug : Option String
  size : Option Int
deriving DecidableEq

/-- The success continuation of `uploadDocument` (App.jsx lines 346-361):
the entry patch applied on server acknowledgment, and the delay (in ms) of
the scheduled `processing → uploaded` follow-up when one is armed. `r` is
the `Math.random()` draw, `localSize` the `File` object's size. -/
def uploadDocumentSuccess (resp : UploadResponse) (localSize : Int) (r : ℚ)
    (entry : FileEntry) : FileEntry × Option ℚ :=
  let nextStatus := resp.status.getD "uploaded"
  let updated :=
    { entry with
        status := nextStatus
        s3Url := resp.s3Url.getD ""
        slug := resp.slug.getD ""
        error := ""
        size := resp.size.getD localSize
        persisted := true }
  (updated, if nextStatus == "processing" then some (1200 + r * 1200) else none)

/-- The delayed callback of App.jsx lines 358-360: patch only `status`. -/
def processingFollowUp (entry : FileEntry) : FileEntry :=
  { entry with status := "uploaded" }

/-- Claim C8 — on server acknowledgment the entry takes the server-declared
status, slug, and remote URL, the server size overrides the local size when
it is a number, and `persisted` becomes true; a `processing` status arms one
follow-up to `uploaded` after a delay in [1200 ms, 2400 ms) that keeps the
slug, and an `uploaded` status arms none. -/
theorem uploadDocument_success_ack (resp : UploadResponse) (localSize : Int)
    (entry : FileEntry) (r : ℚ)
    (_hst : resp.status = some "uploaded" ∨ resp.status = some "processing")
    (hr0 : 0 ≤ r) (hr1 : r < 1) :
    (uploadDocumentSuccess resp localSize r entry).1.status = resp.status.getD "uploaded" ∧
    (uploadDocumentSuccess resp localSize r entry).1.slug = resp.slug.getD "" ∧
    (uploadDocumentSuccess resp localSize r entry).1.s3Url = resp.s3Url.getD "" ∧
    (∀ n : Int, resp.size = some n →
        (uploadDocumentSuccess resp localSize r entry).1.size = n) ∧
    (resp.size = none → (uploadDocumentSuccess resp localSize r entry).1.size = localSize) ∧
    (uploadDocumentSuccess resp localSize r entry).1.persisted = true ∧
    (resp.status = some "uploaded" →
        (uploadDocumentSuccess resp localSize r entry).2 = none) ∧
    (resp.status = some "processing" →
        (uploadDocumentSuccess resp localSize r entry).2 = some (1200 + r * 1200) ∧
        1200 ≤ 1200 + r * 1200 ∧ 1200 + r * 1200 < 2400 ∧
        (processingFollowUp (uploadDocumentSuccess resp localSize r entry).1).status =
          "uploaded" ∧
        (processingFollowUp (uploadDocumentSuccess resp localSize r entry).1).slug =
          resp.slug.getD "") := by
  have hb1 : (1200 : ℚ) ≤ 1200 + r * 1200 := by nlinarith
  have hb2 : (1200 : ℚ) + r * 1200 < 2400 := by nlinarith
  refine ⟨rfl, rfl, rfl, fun n hn => ?_, fun hn => ?_, rfl, fun hu => ?_, fun hp => ?_⟩
  · simp [uploadDocumentSuccess, hn]
  · simp [uploadDocumentSuccess, hn]
  · simp [uploadDocumentSuccess, hu]
  · exact ⟨by simp [uploadDocumentSuccess, hp], hb1, hb2,
      by simp [processingFollowUp], by simp [processingFollowUp, uploadDocumentSuccess]⟩

/-- Witness for C8: the spec's scenario response
`(status processing, slug "abc", size 100)` with jitter draw 1/2. -/
theorem uploadDocument_success_ack_witness :
    (uploadDocumentSuccess
        { status := some "processing", s3Url := some "https://s3/abc",
          slug := some "abc", size := some 100 } 50 (1/2)
        { id := "t1", name := "n.pdf", size := 50, status := "uploading", slug := "",
          s3Url := "", error := "", deleting := false, persisted := false }).1.persisted =
      true ∧
    (uploadDocumentSuccess
        { status := some "processing", s3Url := some "https://s3/abc",
          slug := some "abc", size := some 100 } 50 (1/2)
        { id := "t1", name := "n.pdf", size := 50, status := "uploading", slug := "",
          s3Url := "", error := "", deleting := false, persisted := false }).1.slug =
      "abc" := by
  obtain ⟨h1, h2, h3, h4, h5, h6, h7, h8⟩ :=
    uploadDocument_success_ack
      { status := some "processing", s3Url := some "https://s3/abc",
        slug := some "abc", size := some 100 } 50
      { id := "t1", name := "n.pdf", size := 50, status := "uploading", slug := "",
        s3Url := "", error := "", deleting := false, persisted := false } (1/2)
      (Or.inr rfl) (by norm_num) (by norm_num)
  exact ⟨h6, h2⟩

/-- `removeFile` from App.jsx lines 297-299. -/
def removeFile (id : String) (files : List FileEntry) : List FileEntry :=
  files.filter (fun file => !(file.id == id))

/-- `updateFile` from App.jsx lines 293-295, with the merged patch object
modelled as a function on the matched entry. -/
def updateFile (id : String) (next : FileEntry → FileEntry)
    (files : List FileEntry) : List FileEntry :=
  files.map (fun file => if file.id == id then next file else file)

/-- Removing an entry by id cancels an id-preserving update of that id. -/
theorem removeFile_updateFile (id : String) (u : FileEntry → FileEntry)
    (hu : ∀ f, (u f).id = f.id) (files : List FileEntry) :
    removeFile id (updateFile id u files) = removeFile id files := by
  induction files with
  | nil => rfl
  | cons f fs ih =>
      by_cases hf : f.id = id
      · have hfu : (u f).id = id := by rw [hu f]; exact hf
        simp only [updateFile, removeFile] at ih ⊢
        simp [hf, hfu] at ih ⊢
        exact ih
      · simp only [updateFile, removeFile] at ih ⊢
        simp [hf] at ih ⊢
        exact ih

/-- Two updates of the same id fuse when the first preserves the id. -/
theorem updateFile_updateFile (id : String) (u v : FileEntry → FileEntry)
    (hu : ∀ f, (u f).id = f.id) (files : List FileEntry) :
    updateFile id v (updateFile id u files) =
      updateFile id (fun f => v (u f)) files := by
  unfold updateFile
  rw [List.map_map]
  congr 1
  funext f
  by_cases hf : (f.id == id) = true
  · have hfu : ((u f).id == id) = true := by rw [hu f]; exact hf
    simp [Function.comp, hf, hfu]
  · have hf2 : (f.id == id) = false := by simpa using hf
    simp [Function.comp, hf2]

/-- `handleDelete` from App.jsx lines 372-389: the resulting visible list and
the number of DELETE requests issued, given the request outcome. -/
def handleDelete (file : FileEntry) (outcome : Except String Unit)
    (files : List FileEntry) : List FileEntry × Nat :=
  if file.slug.isEmpty then (removeFile file.id files, 0)
  else
    let files1 := updateFile file.id (fun f => { f with deleting := true, error := "" }) files
    match outcome with
    | .ok _ => (removeFile file.id files1, 1)
    | .error msg =>
        (updateFile file.id
          (fun f => { f with deleting := false, error := errMessage msg "Unable to delete" })
          files1, 1)

/-- Claim C9 — deleting an entry with an empty slug removes it locally with
no network call; a non-empty slug issues exactly one DELETE and removes the
entry only on success, while on failure the entry stays with `deleting`
reset to false and `error` set to the failure message. -/
theorem handleDelete_spec (file : FileEntry) (files : List FileEntry)
    (outcome : Except String Unit) :
    (file.slug = "" → handleDelete file outcome files = (removeFile file.id files, 0)) ∧
    (file.slug ≠ "" →
        (handleDelete file outcome files).2 = 1 ∧
        (outcome = Except.ok () →
            (handleDelete file outcome files).1 = removeFile file.id files) ∧
        (∀ msg, outcome = Except.error msg →
            (handleDelete file outcome files).1 =
              updateFile file.id
                (fun f => { f with deleting := false, error := errMessage msg "Unable to delete" })
                files)) := by
  constructor
  · intro hs
    simp [handleDelete, hs, show String.isEmpty "" = true from rfl]
  · intro hns
    have hse : file.slug.isEmpty = false := by
      cases hx : file.slug.isEmpty
      · rfl
      · exact absurd ((String.isEmpty_iff file.slug).mp hx) hns
    refine ⟨?_, fun hok => ?_, fun msg herr => ?_⟩
    · cases outcome <;> simp [handleDelete, hse]
    · subst hok
      simp only [handleDelete, hse, Bool.false_eq_true, if_false]
      exact removeFile_updateFile file.id
        (fun f => { f with deleting := true, error := "" }) (fun f => rfl) files
    · subst herr
      simp only [handleDelete, hse, Bool.false_eq_true, if_false]
      exact updateFile_updateFile file.id
        (fun f => { f with deleting := true, error := "" })
        (fun f => { f with deleting := false, error := errMessage msg "Unable to delete" })
        (fun f => rfl) files

/-- A concrete persisted entry for the C9 witness. -/
def demoPersisted : FileEntry :=
  { id := "p1", name := "a.pdf", size := 1, status := "uploaded", slug := "a",
    s3Url := "https://s3/a", error := "", deleting := false, persisted := true }

/-- A concrete transient entry for the C9 witness. -/
def demoTransient : FileEntry :=
  { id := "t1", name := "n.pdf", size := 3, status := "uploading", slug := "",
    s3Url := "", error := "", deleting := false, persisted := false }

/-- Witness for C9: a slugless entry deletes locally with zero requests, a
slugged one issues exactly one request. -/
theorem handleDelete_spec_witness :
    handleDelete demoTransient (Except.ok ()) [demoTransient] =
      (removeFile demoTransient.id [demoTransient], 0) ∧
    (handleDelete demoPersisted (Except.error "boom") [demoPersisted]).2 = 1 :=
  ⟨(handleDelete_spec demoTransient [demoTransient] (Except.ok ())).1 rfl,
   ((handleDelete_spec demoPersisted [demoPersisted] (Except.error "boom")).2
      (by decide)).1⟩

end PdfFormApp

namespace PdfFormApp

/-- Progress of one `hydrateUploads` invocation: not yet invoked, suspended on
its `apiFetch`, or finished. -/
inductive HPhase where
  | notStarted
  | awaitingFetch
  | done
deriving DecidableEq

/-- The fixed environment of a hydration interleaving: the cookie contents,
the clock, and the UUID supplies of the mount hydrate (A) and the refresh
hydrate (B). -/
structure HydCfg where
  cache : Option Snapshot
  now : Int
  freshA : Nat → String
  freshB : Nat → String

/-- The shared component state seen by two interleaved hydrate invocations:
the mount hydrate A (whose abort controller is `abortedA`; App.jsx lines
281-287) and the refresh hydrate B, which `handleRefreshUploads` (lines
326-328) starts with no signal. `refreshed` and `appliedAfterRefreshByA` are
history variables recording whether the refresh has begun and whether A
committed an entry application afterwards. -/
structure HydSys where
  files : List FileEntry
  manifestError : String
  manifestLoading : Bool
  phaseA : HPhase
  phaseB : HPhase
  abortedA : Bool
  refreshed : Bool
  appliedAfterRefreshByA : Bool
deriving DecidableEq

/-- State at mount (App.jsx lines 185-191). -/
def initHydSys : HydSys :=
  { files := [], manifestError := "", manifestLoading := true,
    phaseA := HPhase.notStarted, phaseB := HPhase.notStarted,
    abortedA := false, refreshed := false, appliedAfterRefreshByA := false }

/-- Commit one hydration mutation to the shared state; `applyEntries` routes
through `mergePersistedEntries` as `applyManifestEntries` does. -/
def applyHydMut (m : HydMut) (s : HydSys) : HydSys :=
  match m with
  | .applyEntries entries _ => { s with files := mergePersistedEntries entries s.files }
  | .setManifestError msg => { s with manifestError := msg }
  | .setManifestLoading b => { s with manifestLoading := b }

/-- Commit a list of hydration mutations in order. -/
def applyHydMuts (ms : List HydMut) (s : HydSys) : HydSys :=
  ms.foldl (fun s m => applyHydMut m s) s

/-- Whether a mutation applies manifest entries to the visible list. -/
def HydMut.isApplyEntries : HydMut → Bool
  | .applyEntries _ _ => true
  | _ => false

/-- Scheduler events of the hydration interleaving: the mount effect invoking
hydrate A, a click on Refresh invoking hydrate B, completion of either
in-flight fetch, and the mount effect's cleanup aborting A's controller. -/
inductive HydEvent where
  | startMount
  | refresh
  | fetchReturnA (resp : Except String (Option (List RawFile)))
  | fetchReturnB (resp : Except String (Option (List RawFile)))
  | abortA

/-- One scheduler step. `refresh` mirrors `handleRefreshUploads` exactly: it
runs `hydrateUploads({ ignoreCache: true })` with no signal and in particular
does NOT abort hydrate A's controller (nothing in App.jsx does, other than
the unmount cleanup `abortA`). -/
def hydStep (cfg : HydCfg) (e : HydEvent) (s : HydSys) : HydSys :=
  match e with
  | .startMount =>
      if s.phaseA = HPhase.notStarted then
        let p := hydratePhase1 false s.abortedA cfg.cache cfg.now cfg.freshA
        let s1 := applyHydMuts p.1 s
        { s1 with
            phaseA := if p.2 then HPhase.awaitingFetch else HPhase.done
            appliedAfterRefreshByA :=
              s.appliedAfterRefreshByA || (s.refreshed && p.1.any HydMut.isApplyEntries) }
      else s
  | .refresh =>
      if s.phaseB = HPhase.notStarted then
        let p := hydratePhase1 true false cfg.cache cfg.now cfg.freshB
        let s1 := applyHydMuts p.1 s
        { s1 with
            phaseB := if p.2 then HPhase.awaitingFetch else HPhase.done
            refreshed := true }
      else s
  | .fetchReturnA resp =>
      if s.phaseA = HPhase.awaitingFetch then
        let m := hydratePhase2 s.abortedA cfg.freshA resp
        let s1 := applyHydMuts m s
        { s1 with
            phaseA := HPhase.done
            appliedAfterRefreshByA :=
              s.appliedAfterRefreshByA || (s.refreshed && m.any HydMut.isApplyEntries) }
      else s
  | .fetchReturnB resp =>
      if s.phaseB = HPhase.awaitingFetch then
        let m := hydratePhase2 false cfg.freshB resp
        { applyHydMuts m s with phaseB := HPhase.done }
      else s
  | .abortA => { s with abortedA := true }

/-- Run a sequence of scheduler events. -/
def hydRun (cfg : HydCfg) (events : List HydEvent) (s : HydSys) : HydSys :=
  events.foldl (fun s e => hydStep cfg e s) s

/-- Environment of the C6 scenario: empty cookie cache. -/
def cfgDemo : HydCfg :=
  { cache := none, now := 0, freshA := fun _ => "a-id", freshB := fun _ => "b-id" }

/-- The (stale) manifest row hydrate A's fetch returns. -/
def rawA : RawFile :=
  { slug := some "old", fileName := some "old.pdf", size := some 1,
    status := some "uploaded", s3Url := some "" }

/-- The manifest row hydrate B's (refresh) fetch returns. -/
def rawB : RawFile :=
  { slug := some "new", fileName := some "new.pdf", size := some 2,
    status := some "uploaded", s3Url := some "" }

/-- Counterexample to claim C6 — concrete interleaving: the mount hydrate A
suspends on its fetch; a refresh hydration begins and completes; then A's
fetch returns and, because `handleRefreshUploads` never aborts A's
cancellation token, the superseded hydrate A still applies its results,
overwriting the refresh's data: the final visible list is A's entries, and
the history flag records an entry application by A after the refresh began. -/
theorem hydrate_refresh_supersede_cex :
    (hydRun cfgDemo
        [HydEvent.startMount, HydEvent.refresh,
         HydEvent.fetchReturnB (Except.ok (some [rawB])),
         HydEvent.fetchReturnA (Except.ok (some [rawA]))]
        initHydSys).appliedAfterRefreshByA = true ∧
    (hydRun cfgDemo
        [HydEvent.startMount, HydEvent.refresh,
         HydEvent.fetchReturnB (Except.ok (some [rawB])),
         HydEvent.fetchReturnA (Except.ok (some [rawA]))]
        initHydSys).files = mapManifestEntriesToState (fun _ => "a-id") [rawA] ∧
    mapManifestEntriesToState (fun _ => "a-id") [rawA] ≠
      mapManifestEntriesToState (fun _ => "b-id") [rawB] := by
  refine ⟨by decide, by decide, by decide⟩

/-- An aborted hydrate A, suspended on its fetch. -/
theorem hydratePhase1_aborted (ic : Bool) (cache : Option Snapshot) (now : Int)
    (fresh : Nat → String) :
    hydratePhase1 ic true cache now fresh = ([], false) := by
  unfold hydratePhase1
  cases ic
  · cases h : readManifestCache cache now with
    | none => simp [h]
    | some p =>
        rcases p with ⟨parsed, isStale⟩
        simp [h]
  · simp

/-- An aborted continuation commits nothing. -/
theorem hydratePhase2_aborted (fresh : Nat → String)
    (resp : Except String (Option (List RawFile))) :
    hydratePhase2 true fresh resp = [] := by
  cases resp <;> rfl

/-- Amended claim C6 — every state mutation of hydration checks the
cancellation token before committing: once hydrate A's token is aborted,
neither its start nor its fetch continuation changes the visible state (an
explicit refresh, however, never aborts that token — only the unmount
cleanup does — so supersession by refresh alone is not protected, as the
counterexample shows). -/
theorem hydrate_abort_token_guard (cfg : HydCfg) (s : HydSys)
    (resp : Except String (Option (List RawFile))) (h : s.abortedA = true) :
    ((hydStep cfg (HydEvent.fetchReturnA resp) s).files = s.files ∧
     (hydStep cfg (HydEvent.fetchReturnA resp) s).manifestError = s.manifestError ∧
     (hydStep cfg (HydEvent.fetchReturnA resp) s).manifestLoading = s.manifestLoading) ∧
    ((hydStep cfg HydEvent.startMount s).files = s.files ∧
     (hydStep cfg HydEvent.startMount s).manifestError = s.manifestError ∧
     (hydStep cfg HydEvent.startMount s).manifestLoading = s.manifestLoading) := by
  constructor
  · by_cases hp : s.phaseA = HPhase.awaitingFetch
    · simp [hydStep, hp, h, hydratePhase2_aborted, applyHydMuts]
    · simp [hydStep, hp]
  · by_cases hp : s.phaseA = HPhase.notStarted
    · simp [hydStep, hp, h, hydratePhase1_aborted, applyHydMuts]
    · simp [hydStep, hp]

/-- A concrete state with hydrate A aborted while suspended on its fetch. -/
def demoAborted : HydSys :=
  { initHydSys with abortedA := true, phaseA := HPhase.awaitingFetch }

/-- Witness for the amended C6 at `demoAborted`. -/
theorem hydrate_abort_token_guard_witness :
    (hydStep cfgDemo (HydEvent.fetchReturnA (Except.ok (some [rawA]))) demoAborted).files =
      demoAborted.files ∧
    (hydStep cfgDemo HydEvent.startMount demoAborted).files = demoAborted.files :=
  ⟨(hydrate_abort_token_guard cfgDemo demoAborted (Except.ok (some [rawA])) rfl).1.1,
   (hydrate_abort_token_guard cfgDemo demoAborted (Except.ok (some [rawA])) rfl).2.1⟩

end PdfFormApp
